import Mathlib

/-!
phaseField: adaptive refinement marking, the interpolation mesh and the
dependency validation

A shallow embedding of

* `customPDE::adaptiveRefineCriterion`
  (`applications/preferential_nucleationModel/customPDE.h`), with the refinement
  configuration of `applications/dendriticSolidification/parameters.h`;
* `PRISMS::Mesh` (`include/field_input/IntegrationTools/pfield/Mesh.hh`):
  `add_once`, the POINTS and CELL_TYPES sections of `read_vtk`, the node
  generation and the cells of `read_RL_vtk`, `min`, `max`, `basis_functions`, and
  the functions `construct_basis_function` and `construct_interpolating_functions`;
* the dependency validation of `variableAttributeLoader`
  (`include/core/variableAttributeLoader.h`), whose bodies are not among the source
  files: this part follows the specification.

Numbers of C++ type `double` are modelled by rationals: every finite double is a
rational and the comparisons `<`, `>`, `==` on finite doubles are exact.
Unsigned counters and levels are natural numbers.  Where a 32-bit counter of the
source could overflow (the readers, from `2^31` points on) the model says so.
-/

namespace PhaseField

/-! ## Adaptive refinement marking -/

/-- The members of `userInputParameters` that `adaptiveRefineCriterion` reads. -/
structure UserInputs where
  refine_criterion_fields : List Nat
  refine_window_min : List ℚ
  refine_window_max : List ℚ
  max_refinement_level : Nat
  min_refinement_level : Nat

/-- An active cell as the marking loop sees it.  `function_values f q` is what
`fe_values.get_function_values(*solutionSet[f], errorOut)` stores in
`errorOut[q]` after `fe_values.reinit(cell)`; `quadrature_point_x q` is
`fe_values.get_quadrature_points()[q](0)`; `level` is `t_cell->level()` (the
iterator `t_cell` is advanced together with `cell` at every pass of the loop, so
it always denotes the same cell); the two flags are the refine and coarsen flags
of the cell. -/
structure Cell where
  is_locally_owned : Bool
  level : Nat
  function_values : Nat → Nat → ℚ
  quadrature_point_x : Nat → ℚ
  refine_flag : Bool
  coarsen_flag : Bool

/-- The effect of `cell->set_refine_flag()`. -/
def Cell.set_refine_flag (c : Cell) : Cell := { c with refine_flag := true }

/-- The effect of `cell->set_coarsen_flag()`. -/
def Cell.set_coarsen_flag (c : Cell) : Cell := { c with coarsen_flag := true }

/-- Lines 125-128: one `errorOut` vector (of `num_quad_points` entries) is pushed
onto `errorOutV` for each entry of `refine_criterion_fields`. -/
def errorOutV (ui : UserInputs) (num_quad_points : Nat) (c : Cell) : List (List ℚ) :=
  ui.refine_criterion_fields.map
    (fun f => (List.range num_quad_points).map (fun q => c.function_values f q))

/-- Line 130: `q_point_list`, reduced to the first coordinate of each point. -/
def q_point_list (num_quad_points : Nat) (c : Cell) : List ℚ :=
  (List.range num_quad_points).map (fun q => c.quadrature_point_x q)

/-- Line 136: `cond_1`. -/
def cond_1 (ui : UserInputs) (eV : List (List ℚ)) (field_index q_point : Nat) : Bool :=
  decide ((eV.getD field_index []).getD q_point 0 > ui.refine_window_min.getD field_index 0)
    && decide ((eV.getD field_index []).getD q_point 0 < ui.refine_window_max.getD field_index 0)

/-- Line 137: `cond_2`. -/
def cond_2 (gbll gbrl : ℚ) (qs : List ℚ) (q_point : Nat) : Bool :=
  decide (qs.getD q_point 0 > gbll) && decide (qs.getD q_point 0 < gbrl)

/-- Lines 135-142: the loop over `field_index` at a fixed `q_point`, run over the
list of the indices still to visit; `break` leaves the loop with
`mark_refine = true`. -/
def fieldLoop (ui : UserInputs) (gbll gbrl : ℚ) (eV : List (List ℚ)) (qs : List ℚ)
    (q_point : Nat) : List Nat → Bool → Bool
  | [], mark_refine => mark_refine
  | field_index :: rest, mark_refine =>
      if cond_1 ui eV field_index q_point || cond_2 gbll gbrl qs q_point then
        true
      else
        fieldLoop ui gbll gbrl eV qs q_point rest mark_refine

/-- Lines 134-143: the loop over `q_point`; the `break` of the inner loop does not
leave this one. -/
def qLoop (ui : UserInputs) (gbll gbrl : ℚ) (eV : List (List ℚ)) (qs : List ℚ) :
    List Nat → Bool → Bool
  | [], mark_refine => mark_refine
  | q_point :: rest, mark_refine =>
      qLoop ui gbll gbrl eV qs rest
        (fieldLoop ui gbll gbrl eV qs q_point
          (List.range ui.refine_criterion_fields.length) mark_refine)

/-- Lines 125-143: the value of `mark_refine` after the two loops. -/
def mark_refine (ui : UserInputs) (gbll gbrl : ℚ) (num_quad_points : Nat) (c : Cell) : Bool :=
  qLoop ui gbll gbrl (errorOutV ui num_quad_points c) (q_point_list num_quad_points c)
    (List.range num_quad_points) false

/-- Lines 122-157: the body of the cell loop. -/
def visitCell (ui : UserInputs) (gbll gbrl : ℚ) (num_quad_points : Nat) (c : Cell) : Cell :=
  if c.is_locally_owned then
    let mark := mark_refine ui gbll gbrl num_quad_points c
    let current_level := c.level
    if mark && decide (current_level < ui.max_refinement_level) then
      c.set_refine_flag
    else if !mark && decide (current_level > ui.min_refinement_level) then
      c.set_coarsen_flag
    else
      c
  else
    c

/-- Lines 121-159: `customPDE::adaptiveRefineCriterion` as a function from the
active cells before the call to the active cells after it. -/
def adaptiveRefineCriterion (ui : UserInputs) (gbll gbrl : ℚ) (num_quad_points : Nat)
    (cells : List Cell) : List Cell :=
  cells.map (visitCell ui gbll gbrl num_quad_points)

/-- What the text calls the marking predicate of a cell: some configured field has
a sampled value strictly inside its window at some quadrature point, or some
quadrature point lies strictly inside the band `(gbll, gbrl)`. -/
def MarkPredicate (ui : UserInputs) (gbll gbrl : ℚ) (num_quad_points : Nat) (c : Cell) : Prop :=
  (∃ fi, fi < ui.refine_criterion_fields.length ∧ ∃ q, q < num_quad_points ∧
      ui.refine_window_min.getD fi 0 < c.function_values (ui.refine_criterion_fields.getD fi 0) q ∧
      c.function_values (ui.refine_criterion_fields.getD fi 0) q < ui.refine_window_max.getD fi 0)
    ∨ (∃ q, q < num_quad_points ∧ gbll < c.quadrature_point_x q ∧ c.quadrature_point_x q < gbrl)

/-- The refinement configuration of
`applications/dendriticSolidification/parameters.h`: `refineFactor`. -/
def refineFactor : Nat := 7

/-- `maxRefinementLevel` of `dendriticSolidification/parameters.h`. -/
def maxRefinementLevel : Nat := refineFactor

/-- `minRefinementLevel` of `dendriticSolidification/parameters.h`. -/
def minRefinementLevel : Nat := refineFactor - 6

/-- The refinement parameters of `dendriticSolidification/parameters.h` as user
inputs: `refineCriterionFields {1}`, `refineWindowMax {0.99999}`,
`refineWindowMin {-0.99999}` and the two levels. -/
def dendriticSolidification : UserInputs where
  refine_criterion_fields := [1]
  refine_window_min := [-(99999 / 100000)]
  refine_window_max := [99999 / 100000]
  max_refinement_level := maxRefinementLevel
  min_refinement_level := minRefinementLevel

/-! ## The interpolation mesh -/

/-- The constructor arguments `(min, incr, N)` of the `Bin` stored in `_bin`. -/
structure BinArgs where
  min : List ℚ
  incr : List ℚ
  N : List Int
deriving DecidableEq, Repr

/-- The members of `Mesh` written by the POINTS section of `read_vtk` and by the
node generation of `read_RL_vtk`.  A `PRISMS::Coordinate<dim>` is a list of `dim`
numbers. -/
structure Mesh where
  _min : List ℚ
  _max : List ℚ
  _node : List (List ℚ)
  _bin : BinArgs
deriving DecidableEq, Repr

/-- `Mesh::min(int i)` (lines 701-705). -/
def Mesh.min (m : Mesh) (i : Nat) : ℚ := m._min.getD i 0

/-- What `Mesh::basis_functions` uses of an `Interpolator` (declared in
`Interpolator.hh`): `node()`, `element()`, `is_in_range(coord)` and the value
`operator()(coord)`. -/
structure Interpolator where
  node : Nat
  element : Nat
  is_in_range : List ℚ → Bool
  value : List ℚ → ℚ

/-- Lines 741-752: the inner loop of `basis_functions`, on the variable `i` it
shares with the outer loop; the result holds the final `i`. -/
def basis_functions_inner (bin : List Interpolator) (coord : List ℚ) (s element : Nat) :
    Nat → Nat → List ℚ → List Nat → Nat × List ℚ × List Nat
  | 0, i, bfunc, node_index => (i, bfunc, node_index)
  | fuel + 1, i, bfunc, node_index =>
      if i < s then
        match bin[i]? with
        | none => (i, bfunc, node_index)
        | some b =>
            let bfunc1 := bfunc.set i (if b.element = element then b.value coord else 0)
            let node_index1 := node_index.set i b.node
            basis_functions_inner bin coord s element fuel (i + 1) bfunc1 node_index1
      else (i, bfunc, node_index)

/-- Lines 736-760: the outer loop of `basis_functions`; at the first interpolator
in range the inner loop runs from `i = 0` and the function returns. -/
def basis_functions_outer (bin : List Interpolator) (coord : List ℚ) (s : Nat) :
    Nat → Nat → List ℚ → List Nat → List ℚ × List Nat
  | 0, _, bfunc, node_index => (bfunc, node_index)
  | fuel + 1, i, bfunc, node_index =>
      if i < s then
        match bin[i]? with
        | none => (bfunc, node_index)
        | some b =>
            if b.is_in_range coord then
              let r := basis_functions_inner bin coord s b.element s 0 bfunc node_index
              (r.2.1, r.2.2)
            else
              basis_functions_outer bin coord s fuel (i + 1) bfunc node_index
      else (bfunc, node_index)

/-- `Mesh::basis_functions` (lines 724-761); `bin` is `_bin.contents(coord)`.  The
result is `(s, bfunc, node_index)` after the call.  Each loop makes at most `s`
passes, which is the fuel given to it. -/
def basis_functions (bin : List Interpolator) (coord : List ℚ) (bfunc : List ℚ)
    (node_index : List Nat) : Nat × List ℚ × List Nat :=
  let s := bin.length
  (s, basis_functions_outer bin coord s s 0 bfunc node_index)

/-! ## The CELL_TYPES section and the construction of interpolators -/

/-- How a reader ends: it returns to its caller, or it prints `message` and the
offending `cell_type` and calls `exit(status)`. -/
inductive ReadEnd where
  | returned : ReadEnd
  | exited (message : String) (cell_type : Nat) (status : Nat) : ReadEnd
deriving DecidableEq, Repr

/-- The CELL_TYPES section of `Mesh::read_vtk` (lines 306-319) for a mesh of
dimension `dim`; the list holds the `Ncells` values read into `uli_dummy`, in the
order of the file. -/
def read_CELL_TYPES (dim : Nat) : List Nat → ReadEnd
  | [] => ReadEnd.returned
  | uli_dummy :: rest =>
      if uli_dummy ≠ 9 ∧ uli_dummy ≠ 12 then
        ReadEnd.exited "Error reading CELL_TYPES: CELL TYPE != 9 && != 12" uli_dummy 1
      else
        read_CELL_TYPES dim rest

/-- The basis functions that `construct_basis_function` allocates (`new Quad()`,
`new Hexahedron()`); they also tell `QuadValues` from `HexahedronValues`. -/
inductive BasisFunction where
  | Quad : BasisFunction
  | Hexahedron : BasisFunction
deriving DecidableEq, Repr

/-- The constructor arguments of a `QuadValues` or `HexahedronValues` interpolator
(lines 67-72 and 102-107): node index, cell, basis function pointer, node
coordinate, cell extent `dim` and the local index `j`. -/
structure InterpolatorValues where
  shape : BasisFunction
  node_index : Nat
  cell : Nat
  bfunc_ptr : Option BasisFunction
  node : List ℚ
  dim : List ℚ
  j : Nat
deriving DecidableEq, Repr

/-- The 2D `construct_basis_function` (lines 20-29).  The result is the message of
the exception thrown by `AssertThrow`, if any, and `bfunc` after the call. -/
def construct_basis_function_2d (bfunc : Option BasisFunction) (name : String) :
    Option String × Option BasisFunction :=
  if name = "Quad" then (none, some BasisFunction.Quad)
  else (some ("Error in construct_basis_function (2D): unknown name: " ++ name), bfunc)

/-- The 3D `construct_basis_function` (lines 31-40). -/
def construct_basis_function_3d (bfunc : Option BasisFunction) (name : String) :
    Option String × Option BasisFunction :=
  if name = "Hexahedron" then (none, some BasisFunction.Hexahedron)
  else (some ("Error in construct_basis_function (3D): unknown name: " ++ name), bfunc)

/-- The 2D `construct_interpolating_functions` (lines 42-74).  The result is the
message of the exception thrown, if any, and `interp` after the call.  An index
outside a vector reads `0` (or the empty coordinate) here; it is undefined in the
source. -/
def construct_interpolating_functions_2d (interp : List InterpolatorValues) (name : String)
    (cell : Nat) (bfunc_ptr : Option BasisFunction) (cell_node : List Nat)
    (node : List (List ℚ)) : Option String × List InterpolatorValues :=
  if name = "Quad" then
    let dim : List ℚ :=
      [(node.getD (cell_node.getD 2 0) []).getD 0 0 - (node.getD (cell_node.getD 0 0) []).getD 0 0,
       (node.getD (cell_node.getD 2 0) []).getD 1 0 - (node.getD (cell_node.getD 0 0) []).getD 1 0]
    (none, (List.range 4).foldl (fun acc j =>
      acc ++ [{ shape := BasisFunction.Quad, node_index := cell_node.getD j 0, cell := cell,
                bfunc_ptr := bfunc_ptr, node := node.getD (cell_node.getD j 0) [],
                dim := dim, j := j }]) interp)
  else
    (some ("Error in construct_interpolating_function (2D): unknown name: " ++ name), interp)

/-- The 3D `construct_interpolating_functions` (lines 76-109). -/
def construct_interpolating_functions_3d (interp : List InterpolatorValues) (name : String)
    (cell : Nat) (bfunc_ptr : Option BasisFunction) (cell_node : List Nat)
    (node : List (List ℚ)) : Option String × List InterpolatorValues :=
  if name = "Hexahedron" then
    let dim : List ℚ :=
      [(node.getD (cell_node.getD 6 0) []).getD 0 0 - (node.getD (cell_node.getD 0 0) []).getD 0 0,
       (node.getD (cell_node.getD 6 0) []).getD 1 0 - (node.getD (cell_node.getD 0 0) []).getD 1 0,
       (node.getD (cell_node.getD 6 0) []).getD 2 0 - (node.getD (cell_node.getD 0 0) []).getD 2 0]
    (none, (List.range 8).foldl (fun acc j =>
      acc ++ [{ shape := BasisFunction.Hexahedron, node_index := cell_node.getD j 0,
                cell := cell, bfunc_ptr := bfunc_ptr,
                node := node.getD (cell_node.getD j 0) [], dim := dim, j := j }]) interp)
  else
    (some ("Error in construct_interpolating_function (3D): unknown name: " ++ name), interp)

/-! ## Sequences of `add_once` calls -/

/-- Modelled from the spec: the rank of a field, `fieldType` of the missing
`core/varTypeEnums.h`. -/
inductive fieldType where
  | SCALAR : fieldType
  | VECTOR : fieldType
deriving DecidableEq, Repr

/-- Modelled from the spec: the equation type of a field, `PDEType` of the missing
`core/varTypeEnums.h`. -/
inductive PDEType where
  | EXPLICIT_TIME_DEPENDENT : PDEType
  | IMPLICIT_TIME_DEPENDENT : PDEType
  | TIME_INDEPENDENT : PDEType
  | AUXILIARY : PDEType
deriving DecidableEq, Repr

/-- Modelled from the spec: the operator of a dependency token `<op>(<fieldName>)`. -/
inductive DependencyOp where
  | value : DependencyOp
  | grad : DependencyOp
  | hess : DependencyOp
  | change : DependencyOp
deriving DecidableEq, Repr

/-- Modelled from the spec: a dependency token `<op>(<fieldName>)`. -/
structure DependencyToken where
  op : DependencyOp
  fieldName : String
deriving DecidableEq, Repr

/-- Modelled from the spec: the side of the equation a dependency is declared for. -/
inductive EquationSide where
  | RHS : EquationSide
  | LHS : EquationSide
deriving DecidableEq, Repr

/-- Modelled from the spec: the record of one declared field (`variableAttributes`
of the missing `core/variableAttributes.h`): name, rank, equation type and the four
sets of dependency tokens. -/
structure variableAttributes where
  name : String
  var_type : fieldType
  eq_type : PDEType
  dependencies_value_RHS : List DependencyToken
  dependencies_gradient_RHS : List DependencyToken
  dependencies_value_LHS : List DependencyToken
  dependencies_gradient_LHS : List DependencyToken
deriving DecidableEq, Repr

/-- Modelled from the spec: the attribute set, the members `var_attributes` and
`pp_attributes` of `variableAttributeLoader`; the index of a field is its position. -/
structure AttributeSet where
  var_attributes : List variableAttributes
  pp_attributes : List variableAttributes
deriving DecidableEq, Repr

/-- Modelled from the spec: the classes of dependency error, in the order in which
they are reported. -/
inductive ErrorClass where
  | unknownField : ErrorClass
  | unsupportedOperator : ErrorClass
  | illegalContext : ErrorClass
deriving DecidableEq, Repr

/-- Modelled from the spec: a dependency error names the field (by its index, among
the solution or the postprocessing fields), the offending token and the expected
vocabulary. -/
structure DependencyError where
  postprocess : Bool
  index : Nat
  token : DependencyToken
  errorClass : ErrorClass
  expected : List DependencyToken
deriving DecidableEq, Repr

/-- Modelled from the spec: the first field with the given name among the fields
from index `i` on, with its index. -/
def lookupFrom (name : String) : Nat → List variableAttributes → Option (Nat × variableAttributes)
  | _, [] => none
  | i, w :: rest => if w.name = name then some (i, w) else lookupFrom name (i + 1) rest

/-- Modelled from the spec: what is wrong with a token declared on `side` by the
field `index` (a postprocessing field when `postprocess`), if anything: a name
that is no solution field; `hess` of a vector field; a token on the left-hand side
of a postprocessing field, or a `change` token that is not on the own left-hand
side of a field whose equation type is `IMPLICIT_TIME_DEPENDENT` or
`TIME_INDEPENDENT`. -/
def tokenError (A : AttributeSet) (postprocess : Bool) (index : Nat) (side : EquationSide)
    (tok : DependencyToken) : Option ErrorClass :=
  match lookupFrom tok.fieldName 0 A.var_attributes with
  | none => some ErrorClass.unknownField
  | some (i, w) =>
      if tok.op = DependencyOp.hess ∧ w.var_type = fieldType.VECTOR then
        some ErrorClass.unsupportedOperator
      else if postprocess = true ∧ side = EquationSide.LHS then
        some ErrorClass.illegalContext
      else if tok.op = DependencyOp.change then
        if postprocess = false ∧ i = index ∧ side = EquationSide.LHS ∧
            (w.eq_type = PDEType.IMPLICIT_TIME_DEPENDENT ∨
             w.eq_type = PDEType.TIME_INDEPENDENT) then none
        else some ErrorClass.illegalContext
      else none

/-- Modelled from the spec: the regular vocabulary, `value`, `grad` and `hess` of
every scalar solution field, `value` and `grad` of every vector solution field. -/
def reg_possible_deps : List variableAttributes → List DependencyToken
  | [] => []
  | w :: rest =>
      (match w.var_type with
        | fieldType.SCALAR =>
            [{ op := DependencyOp.value, fieldName := w.name },
             { op := DependencyOp.grad, fieldName := w.name },
             { op := DependencyOp.hess, fieldName := w.name }]
        | fieldType.VECTOR =>
            [{ op := DependencyOp.value, fieldName := w.name },
             { op := DependencyOp.grad, fieldName := w.name }])
        ++ reg_possible_deps rest

/-- Modelled from the spec: the `change` token of the field `index`, expected on
its own left-hand side when its equation type allows it. -/
def change_possible_deps (A : AttributeSet) (postprocess : Bool) (index : Nat)
    (side : EquationSide) : List DependencyToken :=
  match A.var_attributes[index]? with
  | none => []
  | some w =>
      if postprocess = false ∧ side = EquationSide.LHS ∧
          (w.eq_type = PDEType.IMPLICIT_TIME_DEPENDENT ∨
           w.eq_type = PDEType.TIME_INDEPENDENT) then
        [{ op := DependencyOp.change, fieldName := w.name }]
      else []

/-- Modelled from the spec: the expected vocabulary reported with an error. -/
def possible_deps (A : AttributeSet) (postprocess : Bool) (index : Nat)
    (side : EquationSide) : List DependencyToken :=
  (if postprocess = true ∧ side = EquationSide.LHS then []
    else reg_possible_deps A.var_attributes)
    ++ change_possible_deps A postprocess index side

/-- Modelled from the spec: the tokens of the four dependency sets of a field, each
with its side, in the order in which they are checked. -/
def fieldTokens (v : variableAttributes) : List (EquationSide × DependencyToken) :=
  v.dependencies_value_RHS.map (fun t => (EquationSide.RHS, t))
    ++ v.dependencies_gradient_RHS.map (fun t => (EquationSide.RHS, t))
    ++ v.dependencies_value_LHS.map (fun t => (EquationSide.LHS, t))
    ++ v.dependencies_gradient_LHS.map (fun t => (EquationSide.LHS, t))

/-- Modelled from the spec: the first token of a field with an error of the given
class. -/
def firstOfClass (A : AttributeSet) (postprocess : Bool) (index : Nat) (cls : ErrorClass)
    (toks : List (EquationSide × DependencyToken)) : Option (EquationSide × DependencyToken) :=
  toks.find? (fun st => decide (tokenError A postprocess index st.1 st.2 = some cls))

/-- Modelled from the spec: the error raised for the token `st` of the field. -/
def raiseError (A : AttributeSet) (postprocess : Bool) (index : Nat) (cls : ErrorClass)
    (st : EquationSide × DependencyToken) : DependencyError where
  postprocess := postprocess
  index := index
  token := st.2
  errorClass := cls
  expected := possible_deps A postprocess index st.1

/-- Modelled from the spec: the validation of the dependencies of one field (the
missing body of `validate_dependencies`).  All its tokens are checked and the first
class of error found is reported: unknown field, then unsupported operator, then
illegal context; `none` when every token is legal. -/
def validate_dependencies (A : AttributeSet) (postprocess : Bool) (index : Nat)
    (v : variableAttributes) : Option DependencyError :=
  match firstOfClass A postprocess index ErrorClass.unknownField (fieldTokens v) with
  | some st => some (raiseError A postprocess index ErrorClass.unknownField st)
  | none =>
    match firstOfClass A postprocess index ErrorClass.unsupportedOperator (fieldTokens v) with
    | some st => some (raiseError A postprocess index ErrorClass.unsupportedOperator st)
    | none =>
      match firstOfClass A postprocess index ErrorClass.illegalContext (fieldTokens v) with
      | some st => some (raiseError A postprocess index ErrorClass.illegalContext st)
      | none => none

/-- Modelled from the spec: the fields of a list are validated in the order of
their declaration, from index `index` on, and the first error is raised. -/
def validate_fields (A : AttributeSet) (postprocess : Bool) :
    Nat → List variableAttributes → Option DependencyError
  | _, [] => none
  | index, v :: rest =>
      match validate_dependencies A postprocess index v with
      | some e => some e
      | none => validate_fields A postprocess (index + 1) rest

/-- Modelled from the spec: the dependency validation of the missing body of
`validate_attributes`, run from `init_variable_attributes`: the solution fields,
then the postprocessing fields.  The result is the dependency error raised, `none`
when validation succeeds.  The checks of the variable names are not modelled. -/
def validate_attributes (A : AttributeSet) : Option DependencyError :=
  match validate_fields A false 0 A.var_attributes with
  | some e => some e
  | none => validate_fields A true 0 A.pp_attributes

/-- Modelled from the spec: the solution fields, or the postprocessing fields. -/
def fieldsOf (A : AttributeSet) (postprocess : Bool) : List variableAttributes :=
  if postprocess = true then A.pp_attributes else A.var_attributes

/-- Modelled from the spec: the scenario of the specification with the scalar
fields `c` (`EXPLICIT_TIME_DEPENDENT`, value term of the right-hand side
`n, grad(n)`) and `n` (`IMPLICIT_TIME_DEPENDENT`, value term of the left-hand side
`n, change(n)`). -/
def scenarioAttributes : AttributeSet where
  var_attributes :=
    [{ name := "c", var_type := fieldType.SCALAR, eq_type := PDEType.EXPLICIT_TIME_DEPENDENT,
       dependencies_value_RHS := [{ op := DependencyOp.value, fieldName := "n" },
                                  { op := DependencyOp.grad, fieldName := "n" }],
       dependencies_gradient_RHS := [], dependencies_value_LHS := [],
       dependencies_gradient_LHS := [] },
     { name := "n", var_type := fieldType.SCALAR, eq_type := PDEType.IMPLICIT_TIME_DEPENDENT,
       dependencies_value_RHS := [], dependencies_gradient_RHS := [],
       dependencies_value_LHS := [{ op := DependencyOp.value, fieldName := "n" },
                                  { op := DependencyOp.change, fieldName := "n" }],
       dependencies_gradient_LHS := [] }]
  pp_attributes := []

/-- Modelled from the spec: one explicit scalar field `c` that declares
`grad(missing_field)` and `change(c)` on its right-hand side. -/
def faultyAttributes : AttributeSet where
  var_attributes :=
    [{ name := "c", var_type := fieldType.SCALAR, eq_type := PDEType.EXPLICIT_TIME_DEPENDENT,
       dependencies_value_RHS := [{ op := DependencyOp.change, fieldName := "c" },
                                  { op := DependencyOp.grad, fieldName := "missing_field" }],
       dependencies_gradient_RHS := [], dependencies_value_LHS := [],
       dependencies_gradient_LHS := [] }]
  pp_attributes := []

/-- A configuration with one criterion field and the window `(0, 2)`, levels 1 to 7. -/
def exampleInputs : UserInputs where
  refine_criterion_fields := [0]
  refine_window_min := [0]
  refine_window_max := [2]
  max_refinement_level := 7
  min_refinement_level := 1

/-- A locally owned cell with unset flags, at the given level, whose sampled values
are all `v` and whose quadrature points all have first coordinate `x`. -/
def exampleCell (level : Nat) (v x : ℚ) : Cell where
  is_locally_owned := true
  level := level
  function_values := fun _ _ => v
  quadrature_point_x := fun _ => x
  refine_flag := false
  coarsen_flag := false

/-- An interpolator of node 5 in element 0 whose range holds no point. -/
def outOfRangeInterpolator : Interpolator where
  node := 5
  element := 0
  is_in_range := fun _ => false
  value := fun _ => 1

/-- A bin of three interpolators: node 5 of element 0, in range nowhere; nodes 6
and 8 of element 1, in range everywhere, with the values 2 and 3. -/
def exampleBin : List Interpolator :=
  [outOfRangeInterpolator,
   { node := 6, element := 1, is_in_range := fun _ => true, value := fun _ => 2 },
   { node := 8, element := 1, is_in_range := fun _ => true, value := fun _ => 3 }]

/-! ### Lemmas on the marking loops -/

theorem errorOutV_getD (ui : UserInputs) (nq : Nat) (c : Cell) (fi q : Nat)
    (hfi : fi < ui.refine_criterion_fields.length) (hq : q < nq) :
    ((errorOutV ui nq c).getD fi []).getD q 0
      = c.function_values (ui.refine_criterion_fields.getD fi 0) q := by
  simp [errorOutV, List.getD_eq_getElem?_getD, List.getElem?_map, List.getElem?_range, hfi, hq,
    List.getElem?_eq_getElem]

theorem q_point_list_getD (nq : Nat) (c : Cell) (q : Nat) (hq : q < nq) :
    (q_point_list nq c).getD q 0 = c.quadrature_point_x q := by
  simp [q_point_list, List.getD_eq_getElem?_getD, List.getElem?_map, List.getElem?_range, hq,
    List.getElem?_eq_getElem]

theorem fieldLoop_true (ui : UserInputs) (gbll gbrl : ℚ) (eV : List (List ℚ)) (qs : List ℚ)
    (q : Nat) (fs : List Nat) : fieldLoop ui gbll gbrl eV qs q fs true = true := by
  induction fs with
  | nil => rfl
  | cons f rest ih => simp [fieldLoop, ih]

theorem fieldLoop_false_iff (ui : UserInputs) (gbll gbrl : ℚ) (eV : List (List ℚ)) (qs : List ℚ)
    (q : Nat) (fs : List Nat) :
    fieldLoop ui gbll gbrl eV qs q fs false = true ↔
      ∃ fi ∈ fs, cond_1 ui eV fi q = true ∨ cond_2 gbll gbrl qs q = true := by
  induction fs with
  | nil => simp [fieldLoop]
  | cons f rest ih =>
    by_cases h : (cond_1 ui eV f q || cond_2 gbll gbrl qs q) = true
    · simp only [fieldLoop, h, if_true, true_iff]
      exact ⟨f, List.mem_cons_self _ _, by simpa using h⟩
    · have hstep : fieldLoop ui gbll gbrl eV qs q (f :: rest) false
          = fieldLoop ui gbll gbrl eV qs q rest false := by
        simp only [fieldLoop, h, if_false]
        simp
      rw [hstep, ih]
      constructor
      · rintro ⟨fi, hfi, hc⟩
        exact ⟨fi, List.mem_cons_of_mem _ hfi, hc⟩
      · rintro ⟨fi, hfi, hc⟩
        rcases List.mem_cons.mp hfi with rfl | hmem
        · exact absurd (by simpa using hc) h
        · exact ⟨fi, hmem, hc⟩

theorem qLoop_true (ui : UserInputs) (gbll gbrl : ℚ) (eV : List (List ℚ)) (qs : List ℚ)
    (ql : List Nat) : qLoop ui gbll gbrl eV qs ql true = true := by
  induction ql with
  | nil => rfl
  | cons q rest ih => simp [qLoop, fieldLoop_true, ih]

theorem qLoop_false_iff (ui : UserInputs) (gbll gbrl : ℚ) (eV : List (List ℚ)) (qs : List ℚ)
    (ql : List Nat) :
    qLoop ui gbll gbrl eV qs ql false = true ↔
      ∃ q ∈ ql, ∃ fi ∈ List.range ui.refine_criterion_fields.length,
        cond_1 ui eV fi q = true ∨ cond_2 gbll gbrl qs q = true := by
  induction ql with
  | nil => simp [qLoop]
  | cons q rest ih =>
    simp only [qLoop]
    by_cases h : fieldLoop ui gbll gbrl eV qs q
        (List.range ui.refine_criterion_fields.length) false = true
    · rw [h, qLoop_true]
      simp only [true_iff]
      exact ⟨q, List.mem_cons_self _ _, (fieldLoop_false_iff ui gbll gbrl eV qs q _).mp h⟩
    · have h' : fieldLoop ui gbll gbrl eV qs q
          (List.range ui.refine_criterion_fields.length) false = false := by
        simpa using h
      rw [h', ih]
      constructor
      · rintro ⟨q', hq', hc⟩
        exact ⟨q', List.mem_cons_of_mem _ hq', hc⟩
      · rintro ⟨q', hq', hc⟩
        rcases List.mem_cons.mp hq' with rfl | hmem
        · exact absurd ((fieldLoop_false_iff ui gbll gbrl eV qs q' _).mpr hc) h
        · exact ⟨q', hmem, hc⟩

/-- The value of `mark_refine` in terms of the two conditions of lines 136-137. -/
theorem mark_refine_iff_cond (ui : UserInputs) (gbll gbrl : ℚ) (nq : Nat) (c : Cell) :
    mark_refine ui gbll gbrl nq c = true ↔
      ∃ q, q < nq ∧ ∃ fi, fi < ui.refine_criterion_fields.length ∧
        (cond_1 ui (errorOutV ui nq c) fi q = true
          ∨ cond_2 gbll gbrl (q_point_list nq c) q = true) := by
  unfold mark_refine
  rw [qLoop_false_iff]
  simp only [List.mem_range]

theorem cond_1_iff (ui : UserInputs) (nq : Nat) (c : Cell) (fi q : Nat)
    (hfi : fi < ui.refine_criterion_fields.length) (hq : q < nq) :
    cond_1 ui (errorOutV ui nq c) fi q = true ↔
      (ui.refine_window_min.getD fi 0 < c.function_values (ui.refine_criterion_fields.getD fi 0) q ∧
       c.function_values (ui.refine_criterion_fields.getD fi 0) q < ui.refine_window_max.getD fi 0) := by
  unfold cond_1
  rw [errorOutV_getD ui nq c fi q hfi hq]
  simp

theorem cond_2_iff (gbll gbrl : ℚ) (nq : Nat) (c : Cell) (q : Nat) (hq : q < nq) :
    cond_2 gbll gbrl (q_point_list nq c) q = true ↔
      (gbll < c.quadrature_point_x q ∧ c.quadrature_point_x q < gbrl) := by
  unfold cond_2
  rw [q_point_list_getD nq c q hq]
  simp

/-- With at least one criterion field, `mark_refine` is the marking predicate. -/
theorem mark_refine_iff (ui : UserInputs) (gbll gbrl : ℚ) (nq : Nat) (c : Cell)
    (hf : 0 < ui.refine_criterion_fields.length) :
    mark_refine ui gbll gbrl nq c = true ↔ MarkPredicate ui gbll gbrl nq c := by
  rw [mark_refine_iff_cond]
  unfold MarkPredicate
  constructor
  · rintro ⟨q, hq, fi, hfi, h | h⟩
    · exact Or.inl ⟨fi, hfi, q, hq, (cond_1_iff ui nq c fi q hfi hq).mp h⟩
    · exact Or.inr ⟨q, hq, (cond_2_iff gbll gbrl nq c q hq).mp h⟩
  · rintro (⟨fi, hfi, q, hq, h⟩ | ⟨q, hq, h⟩)
    · exact ⟨q, hq, fi, hfi, Or.inl ((cond_1_iff ui nq c fi q hfi hq).mpr h)⟩
    · exact ⟨q, hq, 0, hf, Or.inr ((cond_2_iff gbll gbrl nq c q hq).mpr h)⟩

/-! ### Lemmas on the cell loop -/

theorem adaptiveRefineCriterion_getElem? (ui : UserInputs) (gbll gbrl : ℚ) (nq : Nat)
    (cells : List Cell) (i : Nat) :
    (adaptiveRefineCriterion ui gbll gbrl nq cells)[i]?
      = (cells[i]?).map (visitCell ui gbll gbrl nq) := by
  simp [adaptiveRefineCriterion]

/-- The cell at position `i` after the routine is the visited cell at position `i`. -/
theorem visited_of_getElem? (ui : UserInputs) (gbll gbrl : ℚ) (nq : Nat)
    (cells : List Cell) (i : Nat) (c c' : Cell) (hc : cells[i]? = some c)
    (hc' : (adaptiveRefineCriterion ui gbll gbrl nq cells)[i]? = some c') :
    c' = visitCell ui gbll gbrl nq c := by
  rw [adaptiveRefineCriterion_getElem?, hc] at hc'
  simpa using hc'.symm

theorem visitCell_not_owned (ui : UserInputs) (gbll gbrl : ℚ) (nq : Nat) (c : Cell)
    (h : c.is_locally_owned = false) : visitCell ui gbll gbrl nq c = c := by
  simp [visitCell, h]

theorem visitCell_refine_flag (ui : UserInputs) (gbll gbrl : ℚ) (nq : Nat) (c : Cell) :
    (visitCell ui gbll gbrl nq c).refine_flag
      = (c.refine_flag || (c.is_locally_owned && mark_refine ui gbll gbrl nq c
          && decide (c.level < ui.max_refinement_level))) := by
  unfold visitCell
  cases ho : c.is_locally_owned <;> cases hm : mark_refine ui gbll gbrl nq c <;>
    by_cases hl : c.level < ui.max_refinement_level <;>
    by_cases hl' : c.level > ui.min_refinement_level <;>
    simp [hl, hl', Cell.set_refine_flag, Cell.set_coarsen_flag]

theorem visitCell_coarsen_flag (ui : UserInputs) (gbll gbrl : ℚ) (nq : Nat) (c : Cell) :
    (visitCell ui gbll gbrl nq c).coarsen_flag
      = (c.coarsen_flag || (c.is_locally_owned && !mark_refine ui gbll gbrl nq c
          && decide (c.level > ui.min_refinement_level))) := by
  unfold visitCell
  cases ho : c.is_locally_owned <;> cases hm : mark_refine ui gbll gbrl nq c <;>
    by_cases hl : c.level < ui.max_refinement_level <;>
    by_cases hl' : c.level > ui.min_refinement_level <;>
    simp [hl, hl', Cell.set_refine_flag, Cell.set_coarsen_flag]

theorem visitCell_unmarked_low (ui : UserInputs) (gbll gbrl : ℚ) (nq : Nat) (c : Cell)
    (hm : mark_refine ui gbll gbrl nq c = false)
    (hl : c.level ≤ ui.min_refinement_level) : visitCell ui gbll gbrl nq c = c := by
  have hl' : ¬ c.level > ui.min_refinement_level := by omega
  unfold visitCell
  cases ho : c.is_locally_owned <;> simp [hm, hl']

theorem visitCell_marked_capped (ui : UserInputs) (gbll gbrl : ℚ) (nq : Nat) (c : Cell)
    (hm : mark_refine ui gbll gbrl nq c = true)
    (hl : ui.max_refinement_level ≤ c.level) : visitCell ui gbll gbrl nq c = c := by
  have hl' : ¬ c.level < ui.max_refinement_level := by omega
  unfold visitCell
  cases ho : c.is_locally_owned <;> simp [hm, hl']

/-- Widening every window keeps `mark_refine` true. -/
theorem mark_refine_mono (ui : UserInputs) (gbll gbrl : ℚ) (nq : Nat) (c : Cell)
    (min' max' : List ℚ)
    (hmin : ∀ fi, fi < ui.refine_criterion_fields.length →
      min'.getD fi 0 ≤ ui.refine_window_min.getD fi 0)
    (hmax : ∀ fi, fi < ui.refine_criterion_fields.length →
      ui.refine_window_max.getD fi 0 ≤ max'.getD fi 0)
    (h : mark_refine ui gbll gbrl nq c = true) :
    mark_refine { ui with refine_window_min := min', refine_window_max := max' }
      gbll gbrl nq c = true := by
  rw [mark_refine_iff_cond] at h ⊢
  obtain ⟨q, hq, fi, hfi, hc⟩ := h
  refine ⟨q, hq, fi, hfi, ?_⟩
  rcases hc with hc | hc
  · left
    rw [cond_1_iff ui nq c fi q hfi hq] at hc
    exact (cond_1_iff { ui with refine_window_min := min', refine_window_max := max' }
      nq c fi q hfi hq).mpr
      ⟨lt_of_le_of_lt (hmin fi hfi) hc.1, lt_of_lt_of_le hc.2 (hmax fi hfi)⟩
  · right
    exact hc

/-- With the `dendriticSolidification` windows a sampled value `0.5` of field 1
marks the cell. -/
theorem mark_refine_dendritic (gbll gbrl : ℚ) (nq : Nat) (c : Cell) (q : Nat) (hq : q < nq)
    (hv : c.function_values 1 q = 1 / 2) :
    mark_refine dendriticSolidification gbll gbrl nq c = true := by
  rw [mark_refine_iff_cond]
  refine ⟨q, hq, 0, by simp [dendriticSolidification], Or.inl ?_⟩
  rw [cond_1_iff dendriticSolidification nq c 0 q (by simp [dendriticSolidification]) hq]
  simp only [dendriticSolidification, List.getD_cons_zero, hv]
  norm_num

/-! ### Lemmas on `add_once` and the point loops -/

/-- When no interpolator of the bin is in range at `coord`, the outer loop ends
without writing to `bfunc` or `node_index`. -/
theorem basis_functions_outer_none_in_range (bin : List Interpolator) (coord : List ℚ)
    (s : Nat) (h : ∀ b ∈ bin, b.is_in_range coord = false) (fuel i : Nat)
    (bfunc : List ℚ) (node_index : List Nat) :
    basis_functions_outer bin coord s fuel i bfunc node_index = (bfunc, node_index) := by
  induction fuel generalizing i with
  | zero => rfl
  | succ n ih =>
    unfold basis_functions_outer
    by_cases hi : i < s
    · rw [if_pos hi]
      cases hb : bin[i]? with
      | none => rfl
      | some b =>
        have hr := h b (List.getElem?_mem hb)
        simp only [hr, Bool.false_eq_true, if_false]
        exact ih (i + 1)
    · rw [if_neg hi]

/-- The inner loop started at `i` with the passes it still needs: it ends with
`i = s`, writes entry `idx` of both vectors for every `idx` from `i` on that has an
interpolator, and leaves the other entries as they were. -/
theorem basis_functions_inner_spec (bin : List Interpolator) (coord : List ℚ) (e : Nat)
    (fuel i : Nat) (bfunc : List ℚ) (node_index : List Nat)
    (hfuel : i + fuel = bin.length) (hb : bin.length ≤ bfunc.length)
    (hn : bin.length ≤ node_index.length) (r : Nat × List ℚ × List Nat)
    (hr : basis_functions_inner bin coord bin.length e fuel i bfunc node_index = r) :
    r.1 = bin.length ∧ r.2.1.length = bfunc.length ∧ r.2.2.length = node_index.length ∧
    (∀ (idx : Nat) (bi : Interpolator), i ≤ idx → bin[idx]? = some bi →
      r.2.1[idx]? = some (if bi.element = e then bi.value coord else 0) ∧
      r.2.2[idx]? = some bi.node) ∧
    (∀ (idx : Nat), idx < i ∨ bin.length ≤ idx →
      r.2.1[idx]? = bfunc[idx]? ∧ r.2.2[idx]? = node_index[idx]?) := by
  induction fuel generalizing i bfunc node_index with
  | zero =>
    simp only [basis_functions_inner] at hr
    subst hr
    refine ⟨by simpa using hfuel, rfl, rfl, ?_, fun _ _ => ⟨rfl, rfl⟩⟩
    intro idx bi hidx hbi
    have hlt : idx < bin.length := by
      by_contra hge
      rw [List.getElem?_eq_none (by omega)] at hbi
      cases hbi
    omega
  | succ n ih =>
    have hi : i < bin.length := by omega
    have hbin : bin[i]? = some bin[i] := List.getElem?_eq_getElem hi
    unfold basis_functions_inner at hr
    rw [if_pos hi, hbin] at hr
    simp only at hr
    obtain ⟨h1, h2, h3, h4, h5⟩ := ih (i + 1) _ _ (by omega)
      (by rw [List.length_set]; exact hb) (by rw [List.length_set]; exact hn) hr
    rw [List.length_set] at h2 h3
    refine ⟨h1, h2, h3, ?_, ?_⟩
    · intro idx bi hidx hbi
      by_cases heq : idx = i
      · subst heq
        have hbi' : bi = bin[idx] := by
          rw [hbin] at hbi
          exact (Option.some.inj hbi).symm
        obtain ⟨h5a, h5b⟩ := h5 idx (Or.inl (Nat.lt_succ_self idx))
        rw [h5a, h5b, hbi']
        constructor
        · simp [List.getElem?_set, show idx < bfunc.length by omega]
        · simp [List.getElem?_set, show idx < node_index.length by omega]
      · exact h4 idx bi (by omega) hbi
    · intro idx hidx
      have hne : i ≠ idx := by omega
      obtain ⟨h5a, h5b⟩ := h5 idx (by omega)
      rw [h5a, h5b, List.getElem?_set_ne hne, List.getElem?_set_ne hne]
      exact ⟨rfl, rfl⟩

/-- The outer loop reaches the first interpolator in range, at position `k`, and
returns what the inner loop started at `i = 0` leaves. -/
theorem basis_functions_outer_first (bin : List Interpolator) (coord : List ℚ) (k : Nat)
    (b : Interpolator) (hk : bin[k]? = some b) (hin : b.is_in_range coord = true)
    (hfirst : ∀ (k' : Nat) (b' : Interpolator), k' < k → bin[k']? = some b' →
      b'.is_in_range coord = false)
    (fuel i : Nat) (hi : i ≤ k) (hfuel : k < i + fuel) (bfunc : List ℚ)
    (node_index : List Nat) :
    basis_functions_outer bin coord bin.length fuel i bfunc node_index
      = (basis_functions_inner bin coord bin.length b.element bin.length 0
          bfunc node_index).2 := by
  have hklt : k < bin.length := by
    by_contra hge
    rw [List.getElem?_eq_none (by omega)] at hk
    cases hk
  induction fuel generalizing i with
  | zero => omega
  | succ n ih =>
    have hilt : i < bin.length := by omega
    unfold basis_functions_outer
    rw [if_pos hilt]
    by_cases heq : i = k
    · subst heq
      rw [hk]
      simp only [hin, if_true]
    · have hbin : bin[i]? = some bin[i] := List.getElem?_eq_getElem hilt
      have hout := hfirst i bin[i] (by omega) hbin
      rw [hbin]
      simp only [hout, Bool.false_eq_true, if_false]
      exact ih (i + 1) (by omega) (by omega)

/-! ### Lemmas on sequences of `add_once` calls -/

theorem lookupFrom_eq_none (name : String) (i : Nat) (l : List variableAttributes) :
    lookupFrom name i l = none ↔ name ∉ l.map (fun w => w.name) := by
  induction l generalizing i with
  | nil => simp [lookupFrom]
  | cons w rest ih =>
    by_cases h : w.name = name
    · simp [lookupFrom, h]
    · simp [lookupFrom, h, ih, Ne.symm h]

/-- The validation of one field succeeds exactly when each of its tokens is legal. -/
theorem validate_dependencies_none_iff (A : AttributeSet) (pp : Bool) (index : Nat)
    (v : variableAttributes) :
    validate_dependencies A pp index v = none ↔
      ∀ st ∈ fieldTokens v, tokenError A pp index st.1 st.2 = none := by
  unfold validate_dependencies firstOfClass
  constructor
  · intro h
    split at h
    · cases h
    · rename_i h1
      split at h
      · cases h
      · rename_i h2
        split at h
        · cases h
        · rename_i h3
          rw [List.find?_eq_none] at h1 h2 h3
          intro st hst
          have a1 := h1 st hst
          have a2 := h2 st hst
          have a3 := h3 st hst
          simp only [decide_eq_true_eq] at a1 a2 a3
          cases hte : tokenError A pp index st.1 st.2 with
          | none => rfl
          | some cls =>
            cases cls
            · exact absurd hte a1
            · exact absurd hte a2
            · exact absurd hte a3
  · intro h
    have hnone : ∀ cls, List.find? (fun st => decide (tokenError A pp index st.1 st.2 = some cls))
        (fieldTokens v) = none := by
      intro cls
      rw [List.find?_eq_none]
      intro st hst
      simp [h st hst]
    simp only [hnone]

/-- The validation of a list of fields succeeds exactly when the validation of
each field does. -/
theorem validate_fields_none_iff (A : AttributeSet) (pp : Bool) (start : Nat)
    (l : List variableAttributes) :
    validate_fields A pp start l = none ↔
      ∀ (p : Nat) (v : variableAttributes), l[p]? = some v →
        validate_dependencies A pp (start + p) v = none := by
  induction l generalizing start with
  | nil => simp [validate_fields]
  | cons v0 rest ih =>
    unfold validate_fields
    cases h0 : validate_dependencies A pp start v0 with
    | some e =>
      constructor
      · intro hne
        cases hne
      · intro hall
        have := hall 0 v0 (by simp)
        rw [Nat.add_zero, h0] at this
        cases this
    | none =>
      simp only
      rw [ih]
      constructor
      · intro hall p v hp
        cases p with
        | zero =>
          simp only [List.getElem?_cons_zero, Option.some.injEq] at hp
          subst hp
          exact h0
        | succ p' =>
          rw [List.getElem?_cons_succ] at hp
          have := hall p' v hp
          rw [show start + (p' + 1) = start + 1 + p' by omega]
          exact this
      · intro hall p v hp
        have := hall (p + 1) v (by rw [List.getElem?_cons_succ]; exact hp)
        rw [show start + 1 + p = start + (p + 1) by omega]
        exact this

theorem lookupFrom_some (name : String) (start : Nat) (l : List variableAttributes)
    (i : Nat) (w : variableAttributes) (h : lookupFrom name start l = some (i, w)) :
    ∃ p, i = start + p ∧ l[p]? = some w ∧ w.name = name := by
  induction l generalizing start with
  | nil => simp [lookupFrom] at h
  | cons w0 rest ih =>
    unfold lookupFrom at h
    by_cases h0 : w0.name = name
    · rw [if_pos h0] at h
      simp only [Option.some.injEq, Prod.mk.injEq] at h
      obtain ⟨h1, h2⟩ := h
      subst h1 h2
      exact ⟨0, rfl, by simp, h0⟩
    · rw [if_neg h0] at h
      obtain ⟨p, hp1, hp2, hp3⟩ := ih (start + 1) h
      exact ⟨p + 1, by omega, by rw [List.getElem?_cons_succ]; exact hp2, hp3⟩

theorem lookupFrom_first (start : Nat) (l : List variableAttributes) (p : Nat)
    (x : variableAttributes) (hx : l[p]? = some x)
    (hfirst : ∀ (p' : Nat) (w : variableAttributes), p' < p → l[p']? = some w →
      w.name ≠ x.name) :
    lookupFrom x.name start l = some (start + p, x) := by
  induction l generalizing start p with
  | nil => simp at hx
  | cons w0 rest ih =>
    unfold lookupFrom
    cases p with
    | zero =>
      simp only [List.getElem?_cons_zero, Option.some.injEq] at hx
      subst hx
      simp
    | succ q =>
      rw [List.getElem?_cons_succ] at hx
      have h0 : w0.name ≠ x.name := hfirst 0 w0 (by omega) (by simp)
      rw [if_neg h0, ih (start + 1) q hx (fun p' w hp' hw =>
        hfirst (p' + 1) w (by omega) (by rw [List.getElem?_cons_succ]; exact hw))]
      congr 2
      omega

theorem lookupFrom_isSome_of_mem (start : Nat) (l : List variableAttributes) (p : Nat)
    (x : variableAttributes) (hx : l[p]? = some x) :
    ∃ i w, lookupFrom x.name start l = some (i, w) := by
  cases h : lookupFrom x.name start l with
  | none =>
    exfalso
    rw [lookupFrom_eq_none] at h
    exact h (List.mem_map.mpr ⟨x, List.getElem?_mem hx, rfl⟩)
  | some iw => exact ⟨iw.1, iw.2, rfl⟩

/-- The check of a token whose field name is found among the solution fields. -/
theorem tokenError_of_lookup (A : AttributeSet) (pp : Bool) (index : Nat)
    (side : EquationSide) (tok : DependencyToken) (i : Nat) (w : variableAttributes)
    (hl : lookupFrom tok.fieldName 0 A.var_attributes = some (i, w)) :
    tokenError A pp index side tok =
      (if tok.op = DependencyOp.hess ∧ w.var_type = fieldType.VECTOR then
        some ErrorClass.unsupportedOperator
      else if pp = true ∧ side = EquationSide.LHS then some ErrorClass.illegalContext
      else if tok.op = DependencyOp.change then
        if pp = false ∧ i = index ∧ side = EquationSide.LHS ∧
            (w.eq_type = PDEType.IMPLICIT_TIME_DEPENDENT ∨
             w.eq_type = PDEType.TIME_INDEPENDENT) then none
        else some ErrorClass.illegalContext
      else none) := by
  unfold tokenError
  rw [hl]

/-- The validation succeeds exactly when the validation of every field does. -/
theorem validate_attributes_none_iff (A : AttributeSet) :
    validate_attributes A = none ↔
      ∀ (pp : Bool) (i : Nat) (w : variableAttributes), (fieldsOf A pp)[i]? = some w →
        validate_dependencies A pp i w = none := by
  unfold validate_attributes
  cases hv : validate_fields A false 0 A.var_attributes with
  | some e =>
    constructor
    · intro h
      cases h
    · intro hall
      have hnone := (validate_fields_none_iff A false 0 A.var_attributes).mpr
        (fun p v hp => by
          rw [Nat.zero_add]
          exact hall false p v (by simpa [fieldsOf] using hp))
      rw [hv] at hnone
      cases hnone
  | none =>
    simp only
    rw [validate_fields_none_iff] at hv ⊢
    constructor
    · intro hpp pp i w hw
      cases pp with
      | false =>
        have := hv i w (by simpa [fieldsOf] using hw)
        rwa [Nat.zero_add] at this
      | true =>
        have := hpp i w (by simpa [fieldsOf] using hw)
        rwa [Nat.zero_add] at this
    · intro hall p v hp
      rw [Nat.zero_add]
      exact hall true p v (by simpa [fieldsOf] using hp)

theorem read_CELL_TYPES_returned_iff (dim : Nat) (codes : List Nat) :
    read_CELL_TYPES dim codes = ReadEnd.returned ↔ ∀ c ∈ codes, c = 9 ∨ c = 12 := by
  induction codes with
  | nil => simp [read_CELL_TYPES]
  | cons c rest ih =>
    by_cases h : c ≠ 9 ∧ c ≠ 12
    · simp only [read_CELL_TYPES, if_pos h, List.mem_cons, forall_eq_or_imp]
      constructor
      · intro hr
        cases hr
      · rintro ⟨hc, _⟩
        omega
    · simp only [read_CELL_TYPES, if_neg h, ih, List.mem_cons, forall_eq_or_imp]
      constructor
      · intro hr
        exact ⟨by omega, hr⟩
      · exact fun hr => hr.2

theorem read_CELL_TYPES_exited (dim : Nat) (codes : List Nat) (msg : String) (c status : Nat)
    (h : read_CELL_TYPES dim codes = ReadEnd.exited msg c status) :
    msg = "Error reading CELL_TYPES: CELL TYPE != 9 && != 12" ∧ status = 1 ∧
      c ∈ codes ∧ c ≠ 9 ∧ c ≠ 12 := by
  induction codes with
  | nil => simp [read_CELL_TYPES] at h
  | cons c0 rest ih =>
    by_cases hc : c0 ≠ 9 ∧ c0 ≠ 12
    · simp only [read_CELL_TYPES, if_pos hc, ReadEnd.exited.injEq] at h
      obtain ⟨h1, h2, h3⟩ := h
      subst h2
      exact ⟨h1.symm, h3.symm, List.mem_cons_self _ _, hc.1, hc.2⟩
    · simp only [read_CELL_TYPES, if_neg hc] at h
      obtain ⟨h1, h2, h3, h4⟩ := ih h
      exact ⟨h1, h2, List.mem_cons_of_mem _ h3, h4⟩

theorem read_CELL_TYPES_dim (dim dim' : Nat) (codes : List Nat) :
    read_CELL_TYPES dim codes = read_CELL_TYPES dim' codes := by
  induction codes with
  | nil => rfl
  | cons c rest ih => simp only [read_CELL_TYPES, ih]

/-! ## The claims on `adaptiveRefineCriterion` -/

/-- C1: with at least one criterion field, `mark_refine` of a cell is true exactly
when some configured field has, at some quadrature point, a sampled value strictly
between its window bounds, or some quadrature point has its first coordinate
strictly between `gbll` and `gbrl`. -/
theorem C1_mark_refine_iff_union (ui : UserInputs) (gbll gbrl : ℚ) (num_quad_points : Nat)
    (c : Cell) (hf : 0 < ui.refine_criterion_fields.length) :
    mark_refine ui gbll gbrl num_quad_points c = true ↔
      ((∃ fi, fi < ui.refine_criterion_fields.length ∧ ∃ q, q < num_quad_points ∧
          ui.refine_window_min.getD fi 0
            < c.function_values (ui.refine_criterion_fields.getD fi 0) q ∧
          c.function_values (ui.refine_criterion_fields.getD fi 0) q
            < ui.refine_window_max.getD fi 0)
        ∨ (∃ q, q < num_quad_points ∧
            gbll < c.quadrature_point_x q ∧ c.quadrature_point_x q < gbrl)) :=
  mark_refine_iff ui gbll gbrl num_quad_points c hf

/-- C1 at the example configuration, for a cell sampled at the window bound `2`
with its points at `x = 5`. -/
theorem C1_mark_refine_iff_union_witness :
    0 < exampleInputs.refine_criterion_fields.length ∧
    (mark_refine exampleInputs 2 3 4 (exampleCell 3 2 5) = true ↔
      ((∃ fi, fi < exampleInputs.refine_criterion_fields.length ∧ ∃ q, q < 4 ∧
          exampleInputs.refine_window_min.getD fi 0
            < (exampleCell 3 2 5).function_values
                (exampleInputs.refine_criterion_fields.getD fi 0) q ∧
          (exampleCell 3 2 5).function_values
                (exampleInputs.refine_criterion_fields.getD fi 0) q
            < exampleInputs.refine_window_max.getD fi 0)
        ∨ (∃ q, q < 4 ∧
            2 < (exampleCell 3 2 5).quadrature_point_x q ∧
            (exampleCell 3 2 5).quadrature_point_x q < 3))) :=
  ⟨by decide, C1_mark_refine_iff_union exampleInputs 2 3 4 (exampleCell 3 2 5) (by decide)⟩

/-- C2: a cell whose level is at least `max_refinement_level` keeps the refine flag
it had before the call: the routine does not set it. -/
theorem C2_no_refine_at_max_level (ui : UserInputs) (gbll gbrl : ℚ) (num_quad_points : Nat)
    (cells : List Cell) (i : Nat) (c c' : Cell) (hc : cells[i]? = some c)
    (hc' : (adaptiveRefineCriterion ui gbll gbrl num_quad_points cells)[i]? = some c')
    (hlevel : ui.max_refinement_level ≤ c.level) :
    c'.refine_flag = c.refine_flag := by
  rw [visited_of_getElem? ui gbll gbrl num_quad_points cells i c c' hc hc',
    visitCell_refine_flag]
  have hl' : ¬ c.level < ui.max_refinement_level := by omega
  simp [hl']

/-- C2 at a marked cell at level 7 = `max_refinement_level`. -/
theorem C2_no_refine_at_max_level_witness :
    [exampleCell 7 1 5][0]? = some (exampleCell 7 1 5) ∧
    (adaptiveRefineCriterion exampleInputs 2 3 4 [exampleCell 7 1 5])[0]?
      = some (visitCell exampleInputs 2 3 4 (exampleCell 7 1 5)) ∧
    exampleInputs.max_refinement_level ≤ (exampleCell 7 1 5).level ∧
    (visitCell exampleInputs 2 3 4 (exampleCell 7 1 5)).refine_flag
      = (exampleCell 7 1 5).refine_flag :=
  ⟨rfl, rfl, by decide,
    C2_no_refine_at_max_level exampleInputs 2 3 4 [exampleCell 7 1 5] 0 _ _ rfl rfl
      (by decide)⟩

/-- C3: a cell whose level is at most `min_refinement_level` keeps the coarsen flag
it had before the call: the routine does not set it. -/
theorem C3_no_coarsen_at_min_level (ui : UserInputs) (gbll gbrl : ℚ) (num_quad_points : Nat)
    (cells : List Cell) (i : Nat) (c c' : Cell) (hc : cells[i]? = some c)
    (hc' : (adaptiveRefineCriterion ui gbll gbrl num_quad_points cells)[i]? = some c')
    (hlevel : c.level ≤ ui.min_refinement_level) :
    c'.coarsen_flag = c.coarsen_flag := by
  rw [visited_of_getElem? ui gbll gbrl num_quad_points cells i c c' hc hc',
    visitCell_coarsen_flag]
  have hl' : ¬ c.level > ui.min_refinement_level := by omega
  simp [hl']

/-- C3 at an unmarked cell at level 1 = `min_refinement_level`. -/
theorem C3_no_coarsen_at_min_level_witness :
    [exampleCell 1 3 5][0]? = some (exampleCell 1 3 5) ∧
    (adaptiveRefineCriterion exampleInputs 2 3 4 [exampleCell 1 3 5])[0]?
      = some (visitCell exampleInputs 2 3 4 (exampleCell 1 3 5)) ∧
    (exampleCell 1 3 5).level ≤ exampleInputs.min_refinement_level ∧
    (visitCell exampleInputs 2 3 4 (exampleCell 1 3 5)).coarsen_flag
      = (exampleCell 1 3 5).coarsen_flag :=
  ⟨rfl, rfl, by decide,
    C3_no_coarsen_at_min_level exampleInputs 2 3 4 [exampleCell 1 3 5] 0 _ _ rfl rfl
      (by decide)⟩

/-- C4: a locally owned cell whose `mark_refine` is false and whose level is
strictly above `min_refinement_level` has the coarsen flag set after the call, and
its refine flag is the one it had before. -/
theorem C4_unmarked_above_min_coarsens (ui : UserInputs) (gbll gbrl : ℚ)
    (num_quad_points : Nat) (cells : List Cell) (i : Nat) (c c' : Cell)
    (hc : cells[i]? = some c)
    (hc' : (adaptiveRefineCriterion ui gbll gbrl num_quad_points cells)[i]? = some c')
    (howned : c.is_locally_owned = true)
    (hmark : mark_refine ui gbll gbrl num_quad_points c = false)
    (hlevel : ui.min_refinement_level < c.level) :
    c'.coarsen_flag = true ∧ c'.refine_flag = c.refine_flag := by
  rw [visited_of_getElem? ui gbll gbrl num_quad_points cells i c c' hc hc',
    visitCell_refine_flag, visitCell_coarsen_flag]
  simp [howned, hmark, hlevel]

/-- C4 at an unmarked cell at level 3, above the minimum level 1. -/
theorem C4_unmarked_above_min_coarsens_witness :
    [exampleCell 3 3 5][0]? = some (exampleCell 3 3 5) ∧
    (adaptiveRefineCriterion exampleInputs 2 3 4 [exampleCell 3 3 5])[0]?
      = some (visitCell exampleInputs 2 3 4 (exampleCell 3 3 5)) ∧
    (exampleCell 3 3 5).is_locally_owned = true ∧
    mark_refine exampleInputs 2 3 4 (exampleCell 3 3 5) = false ∧
    exampleInputs.min_refinement_level < (exampleCell 3 3 5).level ∧
    (visitCell exampleInputs 2 3 4 (exampleCell 3 3 5)).coarsen_flag = true ∧
    (visitCell exampleInputs 2 3 4 (exampleCell 3 3 5)).refine_flag
      = (exampleCell 3 3 5).refine_flag :=
  ⟨rfl, rfl, rfl, by decide, by decide,
    C4_unmarked_above_min_coarsens exampleInputs 2 3 4 [exampleCell 3 3 5] 0 _ _ rfl rfl rfl
      (by decide) (by decide)⟩

/-- C5, as stated, fails: the cell `exampleCell 1 1 5` is at level 1, the minimum
level of `exampleInputs`, its sampled value `1` lies inside the window `(0, 2)`,
and the routine sets its refine flag. -/
theorem C5_counterexample :
    (exampleCell 1 1 5).level ≤ exampleInputs.min_refinement_level ∧
    (exampleCell 1 1 5).refine_flag = false ∧
    (adaptiveRefineCriterion exampleInputs 2 3 4 [exampleCell 1 1 5]).map Cell.refine_flag
      = [true] := by
  decide

/-- C5, amended: a cell whose level is at or below `min_refinement_level` never
gets the coarsen flag, and is left unchanged when `mark_refine` is false for it;
when it is locally owned, `mark_refine` is true and its level is below
`max_refinement_level`, its refine flag is set. -/
theorem C5_at_or_below_min_level (ui : UserInputs) (gbll gbrl : ℚ)
    (num_quad_points : Nat) (cells : List Cell) (i : Nat) (c c' : Cell)
    (hc : cells[i]? = some c)
    (hc' : (adaptiveRefineCriterion ui gbll gbrl num_quad_points cells)[i]? = some c')
    (hlevel : c.level ≤ ui.min_refinement_level) :
    c'.coarsen_flag = c.coarsen_flag ∧
    (mark_refine ui gbll gbrl num_quad_points c = false → c' = c) ∧
    (c.is_locally_owned = true → mark_refine ui gbll gbrl num_quad_points c = true →
      c.level < ui.max_refinement_level → c'.refine_flag = true) := by
  rw [visited_of_getElem? ui gbll gbrl num_quad_points cells i c c' hc hc']
  refine ⟨?_, ?_, ?_⟩
  · rw [visitCell_coarsen_flag]
    have hl' : ¬ c.level > ui.min_refinement_level := by omega
    simp [hl']
  · intro hm
    exact visitCell_unmarked_low ui gbll gbrl num_quad_points c hm hlevel
  · intro ho hm hl
    rw [visitCell_refine_flag]
    simp [ho, hm, hl]

/-- The amended C5 at the marked cell of the counterexample. -/
theorem C5_at_or_below_min_level_witness :
    [exampleCell 1 1 5][0]? = some (exampleCell 1 1 5) ∧
    (adaptiveRefineCriterion exampleInputs 2 3 4 [exampleCell 1 1 5])[0]?
      = some (visitCell exampleInputs 2 3 4 (exampleCell 1 1 5)) ∧
    (exampleCell 1 1 5).level ≤ exampleInputs.min_refinement_level ∧
    ((visitCell exampleInputs 2 3 4 (exampleCell 1 1 5)).coarsen_flag
        = (exampleCell 1 1 5).coarsen_flag ∧
      (mark_refine exampleInputs 2 3 4 (exampleCell 1 1 5) = false →
        visitCell exampleInputs 2 3 4 (exampleCell 1 1 5) = exampleCell 1 1 5) ∧
      ((exampleCell 1 1 5).is_locally_owned = true →
        mark_refine exampleInputs 2 3 4 (exampleCell 1 1 5) = true →
        (exampleCell 1 1 5).level < exampleInputs.max_refinement_level →
        (visitCell exampleInputs 2 3 4 (exampleCell 1 1 5)).refine_flag = true)) :=
  ⟨rfl, rfl, by decide,
    C5_at_or_below_min_level exampleInputs 2 3 4 [exampleCell 1 1 5] 0 _ _ rfl rfl
      (by decide)⟩

/-- C6: for the same cells, band, levels and criterion fields, if every window is
widened (`min'[f] ≤ min[f]` and `max[f] ≤ max'[f]` for every configured field
index `f`), a cell whose refine flag is set after the call under `(min, max)` has
it set after the call under `(min', max')`. -/
theorem C6_refine_monotone_in_window (ui : UserInputs) (gbll gbrl : ℚ)
    (num_quad_points : Nat) (cells : List Cell) (min' max' : List ℚ) (i : Nat)
    (c1 c2 : Cell)
    (hmin : ∀ fi, fi < ui.refine_criterion_fields.length →
      min'.getD fi 0 ≤ ui.refine_window_min.getD fi 0)
    (hmax : ∀ fi, fi < ui.refine_criterion_fields.length →
      ui.refine_window_max.getD fi 0 ≤ max'.getD fi 0)
    (h1 : (adaptiveRefineCriterion ui gbll gbrl num_quad_points cells)[i]? = some c1)
    (h2 : (adaptiveRefineCriterion
      { ui with refine_window_min := min', refine_window_max := max' }
      gbll gbrl num_quad_points cells)[i]? = some c2)
    (hset : c1.refine_flag = true) : c2.refine_flag = true := by
  rw [adaptiveRefineCriterion_getElem?] at h1 h2
  cases hci : cells[i]? with
  | none => simp [hci] at h1
  | some c =>
    rw [hci] at h1 h2
    simp only [Option.map_some', Option.some.injEq] at h1 h2
    subst h1 h2
    rw [visitCell_refine_flag] at hset ⊢
    simp only [Bool.or_eq_true, Bool.and_eq_true, decide_eq_true_eq] at hset ⊢
    rcases hset with hset | ⟨⟨ho, hm⟩, hl⟩
    · exact Or.inl hset
    · exact Or.inr ⟨⟨ho, mark_refine_mono ui gbll gbrl num_quad_points c min' max' hmin hmax hm⟩,
        hl⟩

/-- C6 at the example cell sampled at `1`: window `(0, 2)` widened to `(-1, 3)`. -/
theorem C6_refine_monotone_in_window_witness :
    (∀ fi, fi < exampleInputs.refine_criterion_fields.length →
      ([-1] : List ℚ).getD fi 0 ≤ exampleInputs.refine_window_min.getD fi 0) ∧
    (∀ fi, fi < exampleInputs.refine_criterion_fields.length →
      exampleInputs.refine_window_max.getD fi 0 ≤ ([3] : List ℚ).getD fi 0) ∧
    (visitCell exampleInputs 2 3 4 (exampleCell 3 1 5)).refine_flag = true ∧
    (visitCell { exampleInputs with refine_window_min := [-1], refine_window_max := [3] }
      2 3 4 (exampleCell 3 1 5)).refine_flag = true :=
  have hmin : ∀ fi, fi < exampleInputs.refine_criterion_fields.length →
      ([-1] : List ℚ).getD fi 0 ≤ exampleInputs.refine_window_min.getD fi 0 := by
    intro fi hfi
    have h0 : fi = 0 := by simpa [exampleInputs] using hfi
    subst h0
    simp [exampleInputs]
  have hmax : ∀ fi, fi < exampleInputs.refine_criterion_fields.length →
      exampleInputs.refine_window_max.getD fi 0 ≤ ([3] : List ℚ).getD fi 0 := by
    intro fi hfi
    have h0 : fi = 0 := by simpa [exampleInputs] using hfi
    subst h0
    norm_num [exampleInputs]
  have hset : (visitCell exampleInputs 2 3 4 (exampleCell 3 1 5)).refine_flag = true := by
    decide
  ⟨hmin, hmax, hset,
    C6_refine_monotone_in_window exampleInputs 2 3 4 [exampleCell 3 1 5] [-1] [3] 0 _ _
      hmin hmax rfl rfl hset⟩

/-- C7: with the refinement parameters of `dendriticSolidification/parameters.h`, a
locally owned cell with a quadrature point where field 1 is sampled at `0.5` gets
the refine flag at level 4, and at level 7 the routine leaves it as it is (neither
flag is set), whatever the band `(gbll, gbrl)` is. -/
theorem C7_dendritic_scenario (gbll gbrl : ℚ) (num_quad_points : Nat) (c : Cell) (q : Nat)
    (howned : c.is_locally_owned = true) (hq : q < num_quad_points)
    (hvalue : c.function_values 1 q = 1 / 2) :
    (adaptiveRefineCriterion dendriticSolidification gbll gbrl num_quad_points
        [{ c with level := 4 }]).map Cell.refine_flag = [true] ∧
    adaptiveRefineCriterion dendriticSolidification gbll gbrl num_quad_points
        [{ c with level := 7 }] = [{ c with level := 7 }] := by
  have h4 := mark_refine_dendritic gbll gbrl num_quad_points { c with level := 4 } q hq hvalue
  have h7 := mark_refine_dendritic gbll gbrl num_quad_points { c with level := 7 } q hq hvalue
  constructor
  · have h : (visitCell dendriticSolidification gbll gbrl num_quad_points
        { c with level := 4 }).refine_flag = true := by
      rw [visitCell_refine_flag, h4]
      simp [howned, dendriticSolidification, maxRefinementLevel, refineFactor]
    simp [adaptiveRefineCriterion, h]
  · simp only [adaptiveRefineCriterion, List.map_cons, List.map_nil]
    rw [visitCell_marked_capped dendriticSolidification gbll gbrl num_quad_points _ h7
      (by simp [dendriticSolidification, maxRefinementLevel, refineFactor])]

/-- C7 at a cell with four quadrature points, all sampled at `0.5`, and an empty
band. -/
theorem C7_dendritic_scenario_witness :
    (exampleCell 0 (1 / 2) 5).is_locally_owned = true ∧ 0 < 4 ∧
    (exampleCell 0 (1 / 2) 5).function_values 1 0 = 1 / 2 ∧
    (adaptiveRefineCriterion dendriticSolidification 0 0 4
        [{ exampleCell 0 (1 / 2) 5 with level := 4 }]).map Cell.refine_flag = [true] ∧
    adaptiveRefineCriterion dendriticSolidification 0 0 4
        [{ exampleCell 0 (1 / 2) 5 with level := 7 }]
      = [{ exampleCell 0 (1 / 2) 5 with level := 7 }] :=
  ⟨rfl, by decide, rfl,
    C7_dendritic_scenario 0 0 4 (exampleCell 0 (1 / 2) 5) 0 rfl (by decide) rfl⟩

/-- C8: a cell that is not locally owned is left exactly as it was, so neither of
its flags is set by the routine. -/
theorem C8_only_locally_owned (ui : UserInputs) (gbll gbrl : ℚ) (num_quad_points : Nat)
    (cells : List Cell) (i : Nat) (c c' : Cell) (hc : cells[i]? = some c)
    (hc' : (adaptiveRefineCriterion ui gbll gbrl num_quad_points cells)[i]? = some c')
    (hnot : c.is_locally_owned = false) :
    c' = c ∧ c'.refine_flag = c.refine_flag ∧ c'.coarsen_flag = c.coarsen_flag := by
  rw [visited_of_getElem? ui gbll gbrl num_quad_points cells i c c' hc hc',
    visitCell_not_owned ui gbll gbrl num_quad_points c hnot]
  exact ⟨rfl, rfl, rfl⟩

/-- C8 at a ghost cell that would be marked if it were visited. -/
theorem C8_only_locally_owned_witness :
    [{ exampleCell 3 1 5 with is_locally_owned := false }][0]?
      = some { exampleCell 3 1 5 with is_locally_owned := false } ∧
    (adaptiveRefineCriterion exampleInputs 2 3 4
        [{ exampleCell 3 1 5 with is_locally_owned := false }])[0]?
      = some (visitCell exampleInputs 2 3 4
          { exampleCell 3 1 5 with is_locally_owned := false }) ∧
    ({ exampleCell 3 1 5 with is_locally_owned := false } : Cell).is_locally_owned = false ∧
    (visitCell exampleInputs 2 3 4 { exampleCell 3 1 5 with is_locally_owned := false }
        = { exampleCell 3 1 5 with is_locally_owned := false } ∧
      (visitCell exampleInputs 2 3 4
          { exampleCell 3 1 5 with is_locally_owned := false }).refine_flag
        = ({ exampleCell 3 1 5 with is_locally_owned := false } : Cell).refine_flag ∧
      (visitCell exampleInputs 2 3 4
          { exampleCell 3 1 5 with is_locally_owned := false }).coarsen_flag
        = ({ exampleCell 3 1 5 with is_locally_owned := false } : Cell).coarsen_flag) :=
  ⟨rfl, rfl, rfl,
    C8_only_locally_owned exampleInputs 2 3 4
      [{ exampleCell 3 1 5 with is_locally_owned := false }] 0 _ _ rfl rfl rfl⟩

/-! ## The claims on `Mesh` -/

/-- C9, failing input: the bin at `coord = (0, 0)` holds one interpolator, of node
5, and `coord` is not in its range.  The call sets `s = 1` and returns with
`bfunc[0]` and `node_index[0]` as they were (7 and 3): `node_index[0]` is not the
node 5 of the interpolator and `bfunc[0]` has not been written. -/
theorem C9_basis_functions_none_in_range :
    basis_functions [outOfRangeInterpolator] [0, 0] [7] [3] = (1, [7], [3]) ∧
    outOfRangeInterpolator.node = 5 := by
  decide

/-- C11: the CELL_TYPES section ends in the exit with status 1 and the message
`CELL TYPE != 9 && != 12` exactly when one of the codes read is neither 9 nor 12
(the code reported is such a code of the section); it returns exactly when every
code is 9 or 12; and the outcome is the same in every dimension: code 12 is accepted
in 2D and code 9 in 3D. -/
theorem C11_cell_types_abort_iff (dim : Nat) (codes : List Nat) :
    ((∃ c ∈ codes, c ≠ 9 ∧ c ≠ 12) ↔
      ∃ c, c ∈ codes ∧ c ≠ 9 ∧ c ≠ 12 ∧ read_CELL_TYPES dim codes
        = ReadEnd.exited "Error reading CELL_TYPES: CELL TYPE != 9 && != 12" c 1) ∧
    ((∀ c ∈ codes, c = 9 ∨ c = 12) ↔ read_CELL_TYPES dim codes = ReadEnd.returned) ∧
    (∀ dim', read_CELL_TYPES dim' codes = read_CELL_TYPES dim codes) ∧
    read_CELL_TYPES 2 [12] = ReadEnd.returned ∧
    read_CELL_TYPES 3 [9] = ReadEnd.returned := by
  refine ⟨⟨?_, ?_⟩, (read_CELL_TYPES_returned_iff dim codes).symm,
    fun dim' => read_CELL_TYPES_dim dim' dim codes, by decide, by decide⟩
  · intro hbad
    cases hr : read_CELL_TYPES dim codes with
    | returned =>
      obtain ⟨c, hc, h9, h12⟩ := hbad
      rcases (read_CELL_TYPES_returned_iff dim codes).mp hr c hc with h | h
      · exact absurd h h9
      · exact absurd h h12
    | exited msg c status =>
      obtain ⟨h1, h2, h3, h4, h5⟩ := read_CELL_TYPES_exited dim codes msg c status hr
      subst h1 h2
      exact ⟨c, h3, h4, h5, rfl⟩
  · rintro ⟨c, hc, h9, h12, _⟩
    exact ⟨c, hc, h9, h12⟩

/-- C12: each of the four construction functions throws exactly when the name is
not `Quad` (2D) or not `Hexahedron` (3D); the exception carries the `unknown name`
message followed by the name, and then `bfunc`, respectively `interp`, is as it was
before the call.  With the right name nothing is thrown, `bfunc` is assigned and
four (2D) or eight (3D) interpolators are appended to `interp`. -/
theorem C12_unknown_name_iff (bfunc : Option BasisFunction)
    (interp : List InterpolatorValues) (name : String) (cell : Nat)
    (bfunc_ptr : Option BasisFunction) (cell_node : List Nat) (node : List (List ℚ)) :
    (((construct_basis_function_2d bfunc name).1 ≠ none ↔ name ≠ "Quad") ∧
      (name ≠ "Quad" → construct_basis_function_2d bfunc name
        = (some ("Error in construct_basis_function (2D): unknown name: " ++ name), bfunc)) ∧
      (name = "Quad" → construct_basis_function_2d bfunc name
        = (none, some BasisFunction.Quad))) ∧
    (((construct_basis_function_3d bfunc name).1 ≠ none ↔ name ≠ "Hexahedron") ∧
      (name ≠ "Hexahedron" → construct_basis_function_3d bfunc name
        = (some ("Error in construct_basis_function (3D): unknown name: " ++ name), bfunc)) ∧
      (name = "Hexahedron" → construct_basis_function_3d bfunc name
        = (none, some BasisFunction.Hexahedron))) ∧
    (((construct_interpolating_functions_2d interp name cell bfunc_ptr cell_node node).1 ≠ none
        ↔ name ≠ "Quad") ∧
      (name ≠ "Quad" →
        construct_interpolating_functions_2d interp name cell bfunc_ptr cell_node node
          = (some ("Error in construct_interpolating_function (2D): unknown name: " ++ name),
             interp)) ∧
      (name = "Quad" →
        (construct_interpolating_functions_2d interp name cell bfunc_ptr cell_node node).2.length
          = interp.length + 4)) ∧
    (((construct_interpolating_functions_3d interp name cell bfunc_ptr cell_node node).1 ≠ none
        ↔ name ≠ "Hexahedron") ∧
      (name ≠ "Hexahedron" →
        construct_interpolating_functions_3d interp name cell bfunc_ptr cell_node node
          = (some ("Error in construct_interpolating_function (3D): unknown name: " ++ name),
             interp)) ∧
      (name = "Hexahedron" →
        (construct_interpolating_functions_3d interp name cell bfunc_ptr cell_node node).2.length
          = interp.length + 8)) := by
  refine ⟨?_, ?_, ?_, ?_⟩
  · by_cases h : name = "Quad" <;> simp [construct_basis_function_2d, h]
  · by_cases h : name = "Hexahedron" <;> simp [construct_basis_function_3d, h]
  · by_cases h : name = "Quad"
    · subst h
      simp [construct_interpolating_functions_2d, List.range, List.range.loop]
    · simp [construct_interpolating_functions_2d, h]
  · by_cases h : name = "Hexahedron"
    · subst h
      simp [construct_interpolating_functions_3d, List.range, List.range.loop]
    · simp [construct_interpolating_functions_3d, h]

/-! ## The claims on the dependency validation -/

/-- C14: for a solution field `x`, the token `change(x)` declared by `x` on either
side is illegal when the equation type of `x` is `EXPLICIT_TIME_DEPENDENT`, and
validation then fails; on the own left-hand side of `x` the token is legal when the
equation type of `x` is `IMPLICIT_TIME_DEPENDENT` (and no earlier field has the
name of `x`); and validation succeeds exactly when every token of every field is
legal. -/
theorem C14_change_of_own_field (A : AttributeSet) (index : Nat) (x : variableAttributes)
    (hx : A.var_attributes[index]? = some x) :
    (x.eq_type = PDEType.EXPLICIT_TIME_DEPENDENT → ∀ side,
      tokenError A false index side { op := DependencyOp.change, fieldName := x.name }
        = some ErrorClass.illegalContext ∧
      ((side, { op := DependencyOp.change, fieldName := x.name }) ∈ fieldTokens x →
        ∃ e, validate_attributes A = some e)) ∧
    (x.eq_type = PDEType.IMPLICIT_TIME_DEPENDENT →
      (∀ (i' : Nat) (w : variableAttributes), i' < index → A.var_attributes[i']? = some w →
        w.name ≠ x.name) →
      tokenError A false index EquationSide.LHS
        { op := DependencyOp.change, fieldName := x.name } = none) ∧
    (validate_attributes A = none ↔
      ∀ (pp : Bool) (i : Nat) (w : variableAttributes), (fieldsOf A pp)[i]? = some w →
        ∀ st ∈ fieldTokens w, tokenError A pp i st.1 st.2 = none) := by
  refine ⟨?_, ?_, ?_⟩
  · intro hexp side
    have hillegal : tokenError A false index side
        { op := DependencyOp.change, fieldName := x.name }
          = some ErrorClass.illegalContext := by
      obtain ⟨i, w, hl⟩ := lookupFrom_isSome_of_mem 0 A.var_attributes index x hx
      obtain ⟨p, hp1, hp2, _⟩ := lookupFrom_some x.name 0 A.var_attributes i w hl
      rw [tokenError_of_lookup A false index side _ i w hl]
      have ha : ¬ (DependencyOp.change = DependencyOp.hess ∧ w.var_type = fieldType.VECTOR) :=
        fun h => by cases h.1
      have hb : ¬ (false = true ∧ side = EquationSide.LHS) := fun h => by cases h.1
      have hcond : ¬ (false = false ∧ i = index ∧ side = EquationSide.LHS ∧
          (w.eq_type = PDEType.IMPLICIT_TIME_DEPENDENT ∨
            w.eq_type = PDEType.TIME_INDEPENDENT)) := by
        rintro ⟨_, hi, _, htype⟩
        have hwx : w = x := by
          rw [Nat.zero_add] at hp1
          rw [← hp1, hi, hx] at hp2
          exact (Option.some.inj hp2).symm
        rw [hwx, hexp] at htype
        rcases htype with h | h <;> cases h
      show (if DependencyOp.change = DependencyOp.hess ∧ w.var_type = fieldType.VECTOR then
          some ErrorClass.unsupportedOperator
        else if false = true ∧ side = EquationSide.LHS then some ErrorClass.illegalContext
        else if DependencyOp.change = DependencyOp.change then
          if false = false ∧ i = index ∧ side = EquationSide.LHS ∧
              (w.eq_type = PDEType.IMPLICIT_TIME_DEPENDENT ∨
               w.eq_type = PDEType.TIME_INDEPENDENT) then none
          else some ErrorClass.illegalContext
        else none) = some ErrorClass.illegalContext
      rw [if_neg ha, if_neg hb, if_pos rfl, if_neg hcond]
    refine ⟨hillegal, ?_⟩
    intro hmem
    cases hval : validate_attributes A with
    | some e => exact ⟨e, rfl⟩
    | none =>
      have h1 := (validate_attributes_none_iff A).mp hval false index x
        (by simpa [fieldsOf] using hx)
      have h2 := (validate_dependencies_none_iff A false index x).mp h1 _ hmem
      rw [hillegal] at h2
      cases h2
  · intro himp hfirst
    have hl := lookupFrom_first 0 A.var_attributes index x hx hfirst
    rw [Nat.zero_add] at hl
    rw [tokenError_of_lookup A false index EquationSide.LHS _ index x hl]
    have ha : ¬ (DependencyOp.change = DependencyOp.hess ∧ x.var_type = fieldType.VECTOR) :=
      fun h => by cases h.1
    have hb : ¬ (false = true ∧ EquationSide.LHS = EquationSide.LHS) := fun h => by cases h.1
    show (if DependencyOp.change = DependencyOp.hess ∧ x.var_type = fieldType.VECTOR then
        some ErrorClass.unsupportedOperator
      else if false = true ∧ EquationSide.LHS = EquationSide.LHS then
        some ErrorClass.illegalContext
      else if DependencyOp.change = DependencyOp.change then
        if false = false ∧ index = index ∧ EquationSide.LHS = EquationSide.LHS ∧
            (x.eq_type = PDEType.IMPLICIT_TIME_DEPENDENT ∨
             x.eq_type = PDEType.TIME_INDEPENDENT) then none
        else some ErrorClass.illegalContext
      else none) = none
    rw [if_neg ha, if_neg hb, if_pos rfl, if_pos ⟨rfl, rfl, rfl, Or.inl himp⟩]
  · rw [validate_attributes_none_iff]
    constructor
    · intro h pp i w hw
      exact (validate_dependencies_none_iff A pp i w).mp (h pp i w hw)
    · intro h pp i w hw
      exact (validate_dependencies_none_iff A pp i w).mpr (h pp i w hw)

/-- C14 at `faultyAttributes`, whose explicit field `c` declares `change(c)`, and
at the field `n` of `scenarioAttributes`, which is implicit and declares
`change(n)` on its left-hand side: the first validation fails, the second
succeeds. -/
theorem C14_change_of_own_field_witness :
    (∃ e, validate_attributes faultyAttributes = some e) ∧
    tokenError scenarioAttributes false 1 EquationSide.LHS
      { op := DependencyOp.change, fieldName := "n" } = none ∧
    validate_attributes scenarioAttributes = none :=
  ⟨((C14_change_of_own_field faultyAttributes 0
      { name := "c", var_type := fieldType.SCALAR,
        eq_type := PDEType.EXPLICIT_TIME_DEPENDENT,
        dependencies_value_RHS := [{ op := DependencyOp.change, fieldName := "c" },
                                   { op := DependencyOp.grad, fieldName := "missing_field" }],
        dependencies_gradient_RHS := [], dependencies_value_LHS := [],
        dependencies_gradient_LHS := [] } rfl).1 rfl EquationSide.RHS).2 (by decide),
   (C14_change_of_own_field scenarioAttributes 1
      { name := "n", var_type := fieldType.SCALAR,
        eq_type := PDEType.IMPLICIT_TIME_DEPENDENT,
        dependencies_value_RHS := [], dependencies_gradient_RHS := [],
        dependencies_value_LHS := [{ op := DependencyOp.value, fieldName := "n" },
                                   { op := DependencyOp.change, fieldName := "n" }],
        dependencies_gradient_LHS := [] } rfl).2.1 rfl
      (by
        intro i' w hi' hw
        have h0 : i' = 0 := by omega
        subst h0
        simp only [scenarioAttributes, List.getElem?_cons_zero, Option.some.injEq] at hw
        subst hw
        decide),
   by decide⟩

/-! ## The claims on `basis_functions`, the bins, the cells and `add_once` -/

/-- C15: when the interpolator at position `k` of the bin is the first one in
range at `coord` (and both vectors are at least as long as the bin), then after the
call `s` is the size of the bin and, for every `i < s`, `bfunc[i]` is the value at
`coord` of the `i`-th interpolator when its element is the element of the `k`-th
one and `0` otherwise, and `node_index[i]` is its node.  The call returns what one
run of the inner loop from `i = 0` leaves, and that run ends with `i = s`. -/
theorem C15_basis_functions_in_range (bin : List Interpolator) (coord : List ℚ)
    (bfunc : List ℚ) (node_index : List Nat) (k : Nat) (b : Interpolator)
    (hk : bin[k]? = some b) (hin : b.is_in_range coord = true)
    (hfirst : ∀ (k' : Nat) (b' : Interpolator), k' < k → bin[k']? = some b' →
      b'.is_in_range coord = false)
    (hb : bin.length ≤ bfunc.length) (hn : bin.length ≤ node_index.length) :
    (basis_functions bin coord bfunc node_index).1 = bin.length ∧
    (∀ (i : Nat) (bi : Interpolator), bin[i]? = some bi →
      (basis_functions bin coord bfunc node_index).2.1[i]?
        = some (if bi.element = b.element then bi.value coord else 0) ∧
      (basis_functions bin coord bfunc node_index).2.2[i]? = some bi.node) ∧
    basis_functions bin coord bfunc node_index
      = (bin.length, (basis_functions_inner bin coord bin.length b.element bin.length 0
          bfunc node_index).2) ∧
    (basis_functions_inner bin coord bin.length b.element bin.length 0
        bfunc node_index).1 = bin.length := by
  have hout := basis_functions_outer_first bin coord k b hk hin hfirst bin.length 0
    (Nat.zero_le k) (by
      have hklt : k < bin.length := by
        by_contra hge
        rw [List.getElem?_eq_none (by omega)] at hk
        cases hk
      omega) bfunc node_index
  obtain ⟨h1, _, _, h4, _⟩ := basis_functions_inner_spec bin coord b.element bin.length 0
    bfunc node_index (by omega) hb hn _ rfl
  have hcall : basis_functions bin coord bfunc node_index
      = (bin.length, (basis_functions_inner bin coord bin.length b.element bin.length 0
          bfunc node_index).2) := by
    simp only [basis_functions, hout]
  refine ⟨by rw [hcall], ?_, hcall, h1⟩
  intro i bi hbi
  rw [hcall]
  exact h4 i bi (Nat.zero_le i) hbi

/-- C15 at `exampleBin`, whose first interpolator in range is at position 1: the
call yields `s = 3`, `bfunc = 0, 2, 3` and `node_index = 5, 6, 8`. -/
theorem C15_basis_functions_in_range_witness :
    exampleBin[1]? = some { node := 6, element := 1, is_in_range := fun _ => true,
                            value := fun _ => 2 } ∧
    exampleBin.length ≤ ([7, 7, 7] : List ℚ).length ∧
    basis_functions exampleBin [0, 0] [7, 7, 7] [9, 9, 9] = (3, [0, 2, 3], [5, 6, 8]) ∧
    (basis_functions exampleBin [0, 0] [7, 7, 7] [9, 9, 9]).1 = exampleBin.length :=
  ⟨rfl, by decide, by decide,
    (C15_basis_functions_in_range exampleBin [0, 0] [7, 7, 7] [9, 9, 9] 1
      { node := 6, element := 1, is_in_range := fun _ => true, value := fun _ => 2 }
      rfl rfl
      (by
        intro k' b' hk' hb'
        have h0 : k' = 0 := by omega
        subst h0
        simp only [exampleBin, List.getElem?_cons_zero, Option.some.injEq] at hb'
        subst hb'
        rfl)
      (by decide) (by decide)).1⟩

end PhaseField
